import Mathlib

/-!
Verification of the WattWhere scoring and aggregation engine.

Shallow embedding of the core pipeline code:
  - `pipeline/environment/ingest.py` (designation overlaps, exclusion cascade)
  - `pipeline/overall/compute_composite.py` (weighted composite aggregator)
  - `pipeline/energy/ingest.py` / `pipeline/cooling/ingest.py`
    (min-max normalization, log-inverse distance decay)
  - `pipeline/grid/generate_grid.py` (centroid-clip grid generation)
  - `api/routes/weights.py` (weight-sum validator)

Machine floats are idealized as exact rationals (ℚ); the distance-decay
score, which is about real logarithms, is modelled over ℝ.  Pandas/NumPy
`round(x, 2)` rounds half to even; `roundHalfEven` mirrors that on exact
rationals.
-/

namespace WattWhere

/-- Round a rational to the nearest integer, ties to even
(the rounding mode of NumPy/pandas `round` and Python's built-in `round`). -/
def roundHalfEven (x : ℚ) : ℤ :=
  if x - ⌊x⌋ < 1/2 then ⌊x⌋
  else if 1/2 < x - ⌊x⌋ then ⌊x⌋ + 1
  else if ⌊x⌋ % 2 = 0 then ⌊x⌋ else ⌊x⌋ + 1

/-- `round(x, 2)`: round to 2 decimal places, ties to even. -/
def round2 (x : ℚ) : ℚ := (roundHalfEven (x * 100) : ℚ) / 100

/-- `Series.clip(0, 100)` / `np.clip(x, 0, 100)`. -/
def clip0100 (x : ℚ) : ℚ := min 100 (max 0 x)

-- ── Environment sort: pipeline/environment/ingest.py ─────────────────────────

/-- `config.TILE_SIZE_M = 2236`. -/
def TILE_SIZE_M : ℚ := 2236

/-- `environment/ingest.py` line 53: `TILE_SIZE_M2 = float(TILE_SIZE_M ** 2)`. -/
def TILE_SIZE_M2 : ℚ := TILE_SIZE_M ^ 2

/-- One merged per-tile input row of `compose_environment_scores`
(`environment/ingest.py` lines 465–485): the designation columns merged
with the flood and landslide columns, after the left-merge `fillna`
defaults (`False` / `100.0` / `"none"`) have been applied. -/
structure EnvInput where
  tile_id : Nat
  intersects_sac : Bool
  intersects_spa : Bool
  intersects_nha : Bool
  intersects_pnha : Bool
  designation_overlap : ℚ
  intersects_current_flood : Bool
  intersects_future_flood : Bool
  flood_risk : ℚ
  landslide_susceptibility : String
  landslide_risk : ℚ
deriving DecidableEq, Repr

/-- `environment/ingest.py` lines 487–491:
`has_hard_exclusion = intersects_sac | intersects_spa | intersects_current_flood`. -/
def hasHardExclusion (r : EnvInput) : Bool :=
  r.intersects_sac || r.intersects_spa || r.intersects_current_flood

/-- `environment/ingest.py` lines 493–511: start at 100, landslide medium → −30,
future flood → cap 40, NHA/pNHA → cap 20, hard exclusion → 0,
then `clip(0,100).round(2)`. -/
def envScore (r : EnvInput) : ℚ :=
  let s0 : ℚ := 100
  let s1 := if r.landslide_susceptibility = "medium" then s0 - 30 else s0
  let s2 := if r.intersects_future_flood then min s1 40 else s1
  let s3 := if r.intersects_nha || r.intersects_pnha then min s2 20 else s2
  let s4 := if hasHardExclusion r then 0 else s3
  round2 (clip0100 s4)

/-- `_exclusion_reason` (`environment/ingest.py` lines 513–525):
first matching reason wins, SAC before SPA before current flood. -/
def exclusion_reason (r : EnvInput) : Option String :=
  if !(hasHardExclusion r) then none
  else if r.intersects_sac then some "SAC overlap"
  else if r.intersects_spa then some "SPA overlap"
  else if r.intersects_current_flood then some "Current flood zone"
  else some "Hard exclusion"

/-- One output row of `compose_environment_scores`, matching the
`environment_scores` table columns used downstream. -/
structure EnvRow where
  tile_id : Nat
  score : ℚ
  has_hard_exclusion : Bool
  exclusion_reason : Option String
  intersects_sac : Bool
  intersects_spa : Bool
  intersects_nha : Bool
  intersects_pnha : Bool
  intersects_current_flood : Bool
  intersects_future_flood : Bool
  landslide_susceptibility : String
deriving DecidableEq, Repr

/-- Row-wise body of `compose_environment_scores`. -/
def envRowOf (r : EnvInput) : EnvRow :=
  { tile_id := r.tile_id
    score := envScore r
    has_hard_exclusion := hasHardExclusion r
    exclusion_reason := exclusion_reason r
    intersects_sac := r.intersects_sac
    intersects_spa := r.intersects_spa
    intersects_nha := r.intersects_nha
    intersects_pnha := r.intersects_pnha
    intersects_current_flood := r.intersects_current_flood
    intersects_future_flood := r.intersects_future_flood
    landslide_susceptibility := r.landslide_susceptibility }

/-- `compose_environment_scores` (`environment/ingest.py` lines 448–527),
applied row-wise to the merged per-tile inputs. -/
def compose_environment_scores (inputs : List EnvInput) : List EnvRow :=
  inputs.map envRowOf

-- ── Composite aggregator: pipeline/overall/compute_composite.py ──────────────

/-- The five weights of the `composite_weights` row (`load_weights`,
`compute_composite.py` lines 61–80); also the shape of the
`WeightsUpdate` payload of `api/routes/weights.py`. -/
structure Weights where
  energy : ℚ
  connectivity : ℚ
  environment : ℚ
  cooling : ℚ
  planning : ℚ
deriving DecidableEq, Repr

/-- `sum(float(v) for v in weights.values())` (`compute_composite.py` line 283);
same summand order as `self.energy + self.connectivity + self.environment +
self.cooling + self.planning` in `api/routes/weights.py` line 51. -/
def sum_weights (w : Weights) : ℚ :=
  w.energy + w.connectivity + w.environment + w.cooling + w.planning

/-- One joined row of `load_sort_scores` (`compute_composite.py` lines 83–121). -/
structure SortRow where
  tile_id : Nat
  energy_score : ℚ
  environment_score : ℚ
  cooling_score : ℚ
  connectivity_score : ℚ
  planning_score : ℚ
  has_hard_exclusion : Bool
  exclusion_reason : Option String
deriving DecidableEq, Repr

/-- The weighted sum of `compute_overall_scores`
(`compute_composite.py` lines 142–148). -/
def weightedSum (w : Weights) (s : SortRow) : ℚ :=
  s.energy_score * w.energy +
  s.environment_score * w.environment +
  s.cooling_score * w.cooling +
  s.connectivity_score * w.connectivity +
  s.planning_score * w.planning

/-- Per-tile score of `compute_overall_scores` (`compute_composite.py`
lines 142–152): weighted sum, `np.where(has_hard_exclusion, 0, score)`,
then `clip(0, 100).round(2)`. -/
def compute_overall_score (w : Weights) (s : SortRow) : ℚ :=
  round2 (clip0100 (if s.has_hard_exclusion then 0 else weightedSum w s))

/-- One output row of `compute_overall_scores`
(`compute_composite.py` lines 154–164). -/
structure OverallRow where
  tile_id : Nat
  score : ℚ
  energy_score : ℚ
  environment_score : ℚ
  cooling_score : ℚ
  connectivity_score : ℚ
  planning_score : ℚ
  has_hard_exclusion : Bool
  exclusion_reason : Option String
deriving DecidableEq, Repr

/-- `compute_overall_scores` (`compute_composite.py` lines 124–166). -/
def compute_overall_scores (scores : List SortRow) (w : Weights) : List OverallRow :=
  scores.map (fun s =>
    { tile_id := s.tile_id
      score := compute_overall_score w s
      energy_score := s.energy_score
      environment_score := s.environment_score
      cooling_score := s.cooling_score
      connectivity_score := s.connectivity_score
      planning_score := s.planning_score
      has_hard_exclusion := s.has_hard_exclusion
      exclusion_reason := s.exclusion_reason })

-- ── Helper lemmas on round2 ──────────────────────────────────────────────────

theorem roundHalfEven_zero : roundHalfEven 0 = 0 := by
  norm_num [roundHalfEven]

theorem round2_zero : round2 0 = 0 := by
  rw [round2, show (0:ℚ) * 100 = 0 by norm_num, roundHalfEven_zero]
  norm_num

theorem clip0100_zero : clip0100 0 = 0 := by
  simp [clip0100]

theorem round2_clip_zero : round2 (clip0100 0) = 0 := by
  rw [clip0100_zero, round2_zero]

-- ── main of compute_composite.py and the weights API validator ──────────────

/-- Steps 2–5 of `main` (`compute_composite.py` lines 288–328), after the
weights are loaded: abort (`SystemExit`) exactly when the joined score table
is empty; otherwise compute the composite rows that step 5 upserts.
The weight-sum check at lines 283–286 only prints a warning and does not
stop the run. -/
def composite_main (w : Weights) (scores : List SortRow) : Option (List OverallRow) :=
  if scores.isEmpty then none
  else some (compute_overall_scores scores w)

/-- The warning condition of `main` (`compute_composite.py` line 285):
`abs(w_sum - 1.0) > 0.001`. -/
def main_weight_warning (w : Weights) : Bool :=
  decide ((1 : ℚ)/1000 < |sum_weights w - 1|)

/-- `WeightsUpdate.weights_must_sum_to_one`
(`api/routes/weights.py` lines 49–54): the admin API validator, raising
`ValueError` exactly when `abs(total - 1.0) > 0.0001`. -/
def weights_must_sum_to_one (w : Weights) : Except String Weights :=
  if (1 : ℚ)/10000 < |sum_weights w - 1| then
    Except.error "Weights must sum to 1.0"
  else Except.ok w

-- ── Min-max normalization (energy/ingest.py lines 583–594 and 655–660) ───────

/-- `Series.min()` over the tile population (never called on an empty
population in the pipeline; `[]` maps to 0 here). -/
def listMin : List ℚ → ℚ
  | [] => 0
  | x :: xs => xs.foldl min x

/-- `Series.max()` over the tile population. -/
def listMax : List ℚ → ℚ
  | [] => 0
  | x :: xs => xs.foldl max x

/-- Min-max normalization of `compute_energy_scores`
(`energy/ingest.py` lines 655–660) and `compute_renewable_scores`
(lines 583–594): `100 * (x - min) / (max - min)` when the observed range
is positive, else the neutral midpoint 50. -/
def minmax_norm (pop : List ℚ) (x : ℚ) : ℚ :=
  if 0 < listMax pop - listMin pop then
    100 * (x - listMin pop) / (listMax pop - listMin pop)
  else 50

-- ── Log-inverse distance decay (energy/cooling ingest) ───────────────────────

/-- `np.log1p`. -/
noncomputable def log1p (x : ℝ) : ℝ := Real.log (1 + x)

/-- Log-inverse distance-decay score (`compute_grid_proximity`,
`energy/ingest.py` lines 243–247, and `compute_water_proximity`,
`cooling/ingest.py` lines 205–209): the distance is first clipped to
`[0, Dmax]` (`fillna(MAX_DIST_KM).clip(0, MAX_DIST_KM)`), then
`np.clip(100 * (1 - log1p(d) / log1p(Dmax)), 0, 100)`. -/
noncomputable def distance_decay_score (dmax d : ℝ) : ℝ :=
  let dc := min (max d 0) dmax
  min 100 (max 0 (100 * (1 - log1p dc / log1p dmax)))

-- ── The 5-way inner join of load_sort_scores ─────────────────────────────────

/-- The row built by the 5-way INNER JOIN of `load_sort_scores` for one
tile: `some` exactly when the tile is present in all five sort tables. -/
def joinSortRow (energy : Nat → Option ℚ) (env : Nat → Option EnvRow)
    (cooling connectivity planning : Nat → Option ℚ) (t : Nat) :
    Option SortRow :=
  match energy t, env t, cooling t, connectivity t, planning t with
  | some e, some er, some c, some cn, some p =>
      some { tile_id := t, energy_score := e, environment_score := er.score,
             cooling_score := c, connectivity_score := cn,
             planning_score := p,
             has_hard_exclusion := er.has_hard_exclusion,
             exclusion_reason := er.exclusion_reason }
  | _, _, _, _, _ => none

/-- `load_sort_scores` (`compute_composite.py` lines 83–121): INNER JOIN of
the tiles table with the five sort tables on tile identity.  The sort
tables are modelled as finite maps from tile id to their row. -/
def load_sort_scores (tiles : List Nat) (energy : Nat → Option ℚ)
    (env : Nat → Option EnvRow)
    (cooling connectivity planning : Nat → Option ℚ) : List SortRow :=
  tiles.filterMap (joinSortRow energy env cooling connectivity planning)

/-- The mismatch count reported by `load_sort_scores` (lines 112–119):
`missing = total_tiles - len(scores_df)`. -/
def missing_tile_count (tiles : List Nat) (energy : Nat → Option ℚ)
    (env : Nat → Option EnvRow)
    (cooling connectivity planning : Nat → Option ℚ) : Nat :=
  tiles.length
    - (load_sort_scores tiles energy env cooling connectivity planning).length

-- ── Grid generation: pipeline/grid/generate_grid.py ──────────────────────────

/-- One surviving cell of `generate_grid_itm`
(`grid/generate_grid.py` lines 179–198): lattice row/column index, box
minimum corner and cell centroid. -/
structure GridTile where
  row : Nat
  col : Nat
  x0 : ℚ
  y0 : ℚ
  cx : ℚ
  cy : ℚ
deriving DecidableEq, Repr

/-- Centroid of candidate cell `idx` of the flattened meshgrid
(`generate_grid.py` lines 160–167 and 178–189): `row = idx // n_cols`,
`col = idx % n_cols`, centre at the cell start plus half a tile. -/
def candidate_centroid (minx miny tile_size : ℚ) (nCols : Nat) (idx : Nat) :
    ℚ × ℚ :=
  (minx + (idx % nCols : Nat) * tile_size + tile_size / 2,
   miny + (idx / nCols : Nat) * tile_size + tile_size / 2)

/-- `generate_grid_itm` (`generate_grid.py` lines 137–198): lay out the
candidate lattice over the bounding box and keep exactly the cells whose
centroid passes the boundary containment test (`shapely.within` of the
centroid point against the prepared boundary geometry, modelled by the
`contains` predicate); boxes and centroids of survivors are rebuilt from
the lattice indices. -/
def generate_grid_itm (contains : ℚ × ℚ → Bool)
    (minx miny tile_size : ℚ) (nCols nRows : Nat) : List GridTile :=
  (List.range (nRows * nCols)).filterMap fun idx =>
    let r := idx / nCols
    let c := idx % nCols
    let x := minx + (c : ℚ) * tile_size
    let y := miny + (r : ℚ) * tile_size
    if contains (candidate_centroid minx miny tile_size nCols idx) then
      some ⟨r, c, x, y, x + tile_size / 2, y + tile_size / 2⟩
    else none

-- ── Designation overlap detail records ───────────────────────────────────────

/-- One row of the `tile_designation_overlaps` detail table. -/
structure OverlapRow where
  tile_id : Nat
  designation_type : String
  designation_name : String
  designation_id : Option String
  pct_overlap : ℚ
deriving DecidableEq, Repr

/-- One candidate intersecting (tile, designation) pair as produced by the
`STRtree.query` + vectorized `shapely.intersection`/`shapely.area` pass of
`_compute_type_overlaps` (`environment/ingest.py` lines 138–149): tile id,
designation name and code resolved from the source columns, and the
intersection area in m². -/
structure OverlapPair where
  tile_id : Nat
  name : Option String
  code : Option String
  area : ℚ
deriving DecidableEq, Repr

/-- `_compute_type_overlaps` (`environment/ingest.py` lines 119–185) after
the geometry pass: drop pairs with zero intersection area
(`mask = areas > 0`, lines 151–155), then build one detail row per
surviving pair with `pct = min(100.0, area / TILE_SIZE_M2 * 100.0)`
rounded to 2 decimal places (lines 166–183). -/
def compute_type_overlaps (pairs : List OverlapPair) (des_type : String) :
    List OverlapRow :=
  (pairs.filter fun p => decide (0 < p.area)).map fun p =>
    { tile_id := p.tile_id
      designation_type := des_type
      designation_name := p.name.getD ("Unknown " ++ des_type)
      designation_id := p.code
      pct_overlap := round2 (min 100 (p.area / TILE_SIZE_M2 * 100)) }

-- ── Spec-side composite formulation (for the refinement claim C3) ────────────

/-- Formulation following the spec's words: the weighted sum
`Σ(category_score × weight)` clamped to [0,100] and rounded to 2 decimal
places, then overridden to 0 wherever the environmental hard-exclusion
flag is set, regardless of the weighted sum's value. -/
def specCompositeScore (w : Weights) (s : SortRow) : ℚ :=
  if s.has_hard_exclusion then 0 else round2 (clip0100 (weightedSum w s))

-- ── Claim theorems ───────────────────────────────────────────────────────────

/-- C1: for every tile of the environment score table, if the hard-exclusion
flag is set then the environment category score is 0 and the composite score
computed from that flag is 0, for every weight configuration. -/
theorem env_hard_exclusion_zeroes_scores
    (inputs : List EnvInput) (er : EnvRow)
    (her : er ∈ compose_environment_scores inputs)
    (hex : er.has_hard_exclusion = true)
    (w : Weights) (s : SortRow)
    (hs : s.has_hard_exclusion = er.has_hard_exclusion) :
    er.score = 0 ∧ compute_overall_score w s = 0 := by
  obtain ⟨r, -, rfl⟩ := List.mem_map.mp her
  have hexr : hasHardExclusion r = true := hex
  constructor
  · show envScore r = 0
    simp only [envScore, hexr, if_true]
    exact round2_clip_zero
  · have hst : s.has_hard_exclusion = true := by rw [hs]; exact hex
    simp only [compute_overall_score, hst, if_true]
    exact round2_clip_zero

def envInputSAC : EnvInput :=
  ⟨1, true, false, false, false, 0, false, false, 100, "none", 100⟩

def weightsSkewed : Weights := ⟨9/10, 9/10, 9/10, 9/10, 9/10⟩

def sortRowExcluded : SortRow :=
  ⟨1, 100, 0, 100, 100, 100, true, some "SAC overlap"⟩

theorem env_hard_exclusion_zeroes_scores_witness :
    (envRowOf envInputSAC).score = 0
    ∧ compute_overall_score weightsSkewed sortRowExcluded = 0 :=
  env_hard_exclusion_zeroes_scores [envInputSAC] (envRowOf envInputSAC)
    (List.mem_map.mpr ⟨envInputSAC, List.mem_singleton.mpr rfl, rfl⟩)
    rfl weightsSkewed sortRowExcluded rfl

/-- C3: for every tile included in the composite, the composite score equals
the weighted sum over the five category scores, clamped to [0,100] and
rounded to 2 decimal places, then overridden to 0 wherever the environmental
hard-exclusion flag is set. -/
theorem composite_is_clamped_weighted_sum_with_override
    (w : Weights) (scores : List SortRow) :
    (compute_overall_scores scores w).map (fun r => r.score)
      = scores.map (fun s => specCompositeScore w s) := by
  unfold compute_overall_scores
  rw [List.map_map]
  refine List.map_congr_left (fun s _ => ?_)
  show compute_overall_score w s = specCompositeScore w s
  unfold compute_overall_score specCompositeScore
  cases h : s.has_hard_exclusion
  · simp only [h, Bool.false_eq_true, if_false]
  · simp only [h, if_true]
    exact round2_clip_zero

/-- C4: a tile with a medium-severity landslide hazard class overlapping a
SAC ends with environment score exactly 0, the hard-exclusion flag set, and
the SAC-overlap reason recorded (not the hazard penalty); the hard exclusion
is applied last, so no cap or penalty can raise the zeroed score. -/
theorem medium_hazard_sac_tile_zeroed
    (r : EnvInput)
    (hm : r.landslide_susceptibility = "medium")
    (hsac : r.intersects_sac = true) :
    envScore r = 0 ∧ hasHardExclusion r = true
    ∧ exclusion_reason r = some "SAC overlap" := by
  have hex : hasHardExclusion r = true := by
    simp [hasHardExclusion, hsac]
  refine ⟨?_, hex, ?_⟩
  · simp only [envScore, hex, if_true]
    exact round2_clip_zero
  · simp [exclusion_reason, hex, hsac]

def envInputMediumSAC : EnvInput :=
  ⟨2, true, false, false, false, 0, false, false, 100, "medium", 40⟩

theorem medium_hazard_sac_tile_zeroed_witness :
    envScore envInputMediumSAC = 0
    ∧ hasHardExclusion envInputMediumSAC = true
    ∧ exclusion_reason envInputMediumSAC = some "SAC overlap" :=
  medium_hazard_sac_tile_zeroed envInputMediumSAC rfl rfl

/-- C9: for every tile of the environment score table, the exclusion reason
is non-null iff the hard-exclusion flag is set, and when set it is the first
matching reason in the precedence order SAC overlap, SPA overlap, current
flood zone. -/
theorem exclusion_reason_iff_hard_exclusion
    (inputs : List EnvInput) (er : EnvRow)
    (her : er ∈ compose_environment_scores inputs) :
    (er.exclusion_reason.isSome = true ↔ er.has_hard_exclusion = true)
    ∧ (er.has_hard_exclusion = true →
        er.exclusion_reason = some (if er.intersects_sac then "SAC overlap"
          else if er.intersects_spa then "SPA overlap"
          else "Current flood zone")) := by
  obtain ⟨r, -, rfl⟩ := List.mem_map.mp her
  cases hsac : r.intersects_sac <;> cases hspa : r.intersects_spa <;>
    cases hfl : r.intersects_current_flood <;>
      simp [envRowOf, exclusion_reason, hasHardExclusion, hsac, hspa, hfl]

def badWeights : Weights := ⟨1/10, 1/10, 1/10, 1/10, 1/10⟩

def unitWeights : Weights := ⟨1/5, 1/5, 1/5, 1/5, 1/5⟩

def sortRowNeutral : SortRow := ⟨1, 50, 50, 50, 50, 50, false, none⟩

/-- C2 counterexample: with weights summing to 0.5 (off from 1 by far more
than 1e-4) and a non-empty joined score table, the Composite Aggregator does
not abort: it computes and returns composite rows. -/
theorem composite_runs_despite_bad_weights :
    (1 : ℚ)/10000 < |sum_weights badWeights - 1|
    ∧ composite_main badWeights [sortRowNeutral]
        = some [⟨1, 25, 50, 50, 50, 50, 50, false, none⟩] := by
  constructor
  · rw [show |sum_weights badWeights - 1| = 1/2 by
      rw [show sum_weights badWeights - 1 = -(1/2) by
        norm_num [sum_weights, badWeights]]
      rw [abs_neg, abs_of_pos] <;> norm_num]
    norm_num
  · have hscore : compute_overall_score badWeights sortRowNeutral = 25 := by
      rw [compute_overall_score]
      simp only [show sortRowNeutral.has_hard_exclusion = false from rfl,
        Bool.false_eq_true, if_false]
      rw [show weightedSum badWeights sortRowNeutral = 25 by
        norm_num [weightedSum, badWeights, sortRowNeutral]]
      rw [show clip0100 (25 : ℚ) = 25 by norm_num [clip0100]]
      norm_num [round2, roundHalfEven]
    rw [composite_main, if_neg (by simp), compute_overall_scores]
    simp only [List.map_cons, List.map_nil]
    rw [hscore]
    rfl

/-- C2 (amended): with a non-empty joined score table the Composite
Aggregator always computes composite scores, whatever the weight sum; a sum
off from 1 by more than 1e-3 only sets the warning condition.  The
sum-to-1 constraint with the 1e-4 tolerance is enforced by the weights API
validator, which accepts an update exactly when the sum is within 1e-4
of 1. -/
theorem composite_never_refuses_on_weights
    (w w' : Weights) (scores : List SortRow) (h : scores ≠ []) :
    composite_main w scores = some (compute_overall_scores scores w)
    ∧ (main_weight_warning w = true ↔ (1 : ℚ)/1000 < |sum_weights w - 1|)
    ∧ (weights_must_sum_to_one w' = Except.ok w'
        ↔ |sum_weights w' - 1| ≤ (1 : ℚ)/10000) := by
  refine ⟨?_, ?_, ?_⟩
  · cases scores with
    | nil => exact absurd rfl h
    | cons a t => simp [composite_main]
  · simp [main_weight_warning]
  · by_cases hlt : (1 : ℚ)/10000 < |sum_weights w' - 1|
    · rw [weights_must_sum_to_one, if_pos hlt]
      exact iff_of_false (by simp) (not_le.mpr hlt)
    · rw [weights_must_sum_to_one, if_neg hlt]
      exact iff_of_true rfl (not_lt.mp hlt)

theorem composite_never_refuses_on_weights_witness :
    composite_main badWeights [sortRowNeutral]
      = some (compute_overall_scores [sortRowNeutral] badWeights)
    ∧ (main_weight_warning badWeights = true
        ↔ (1 : ℚ)/1000 < |sum_weights badWeights - 1|)
    ∧ (weights_must_sum_to_one unitWeights = Except.ok unitWeights
        ↔ |sum_weights unitWeights - 1| ≤ (1 : ℚ)/10000) :=
  composite_never_refuses_on_weights badWeights unitWeights [sortRowNeutral]
    (by simp)

-- ── C5: min-max normalization ────────────────────────────────────────────────

theorem foldl_min_mem (xs : List ℚ) : ∀ x : ℚ, xs.foldl min x ∈ x :: xs := by
  induction xs with
  | nil => intro x; simp
  | cons a t ih =>
    intro x
    have h := ih (min x a)
    rcases List.mem_cons.mp h with h1 | h2
    · rw [List.foldl_cons, h1]
      rcases min_choice x a with hx | ha
      · rw [hx]; exact List.mem_cons_self _ _
      · rw [ha]; exact List.mem_cons_of_mem _ (List.mem_cons_self _ _)
    · simp only [List.foldl_cons]
      exact List.mem_cons_of_mem _ (List.mem_cons_of_mem _ h2)

theorem foldl_max_mem (xs : List ℚ) : ∀ x : ℚ, xs.foldl max x ∈ x :: xs := by
  induction xs with
  | nil => intro x; simp
  | cons a t ih =>
    intro x
    have h := ih (max x a)
    rcases List.mem_cons.mp h with h1 | h2
    · rw [List.foldl_cons, h1]
      rcases max_choice x a with hx | ha
      · rw [hx]; exact List.mem_cons_self _ _
      · rw [ha]; exact List.mem_cons_of_mem _ (List.mem_cons_self _ _)
    · simp only [List.foldl_cons]
      exact List.mem_cons_of_mem _ (List.mem_cons_of_mem _ h2)

/-- C5: over a non-empty tile population, the observed minimum and maximum
are achieved by tiles of the population; when the range is positive the
minimum normalizes to 0 and the maximum to 100, and when the range is zero
every tile of the population normalizes to the neutral midpoint 50. -/
theorem minmax_min_to_zero_max_to_hundred (pop : List ℚ) (h : pop ≠ []) :
    listMin pop ∈ pop ∧ listMax pop ∈ pop
    ∧ (0 < listMax pop - listMin pop →
        minmax_norm pop (listMin pop) = 0
        ∧ minmax_norm pop (listMax pop) = 100)
    ∧ (listMax pop - listMin pop = 0 →
        ∀ x ∈ pop, minmax_norm pop x = 50) := by
  refine ⟨?_, ?_, ?_, ?_⟩
  · cases pop with
    | nil => exact absurd rfl h
    | cons a t => exact foldl_min_mem t a
  · cases pop with
    | nil => exact absurd rfl h
    | cons a t => exact foldl_max_mem t a
  · intro hr
    constructor
    · simp [minmax_norm, hr]
    · simp only [minmax_norm, hr, if_true]
      rw [mul_div_assoc, div_self hr.ne', mul_one]
  · intro hr x _
    simp [minmax_norm, hr]

theorem minmax_min_to_zero_max_to_hundred_witness :
    minmax_norm [2, 8] (listMin [2, 8]) = 0
    ∧ minmax_norm [2, 8] (listMax [2, 8]) = 100 :=
  (minmax_min_to_zero_max_to_hundred [2, 8] (by simp)).2.2.1
    (by norm_num [listMax, listMin])

def envInputSacSpa : EnvInput :=
  ⟨3, true, true, false, false, 0, true, false, 0, "none", 100⟩

theorem exclusion_reason_iff_hard_exclusion_witness :
    (envRowOf envInputSacSpa).exclusion_reason = some "SAC overlap" := by
  have h := exclusion_reason_iff_hard_exclusion [envInputSacSpa]
    (envRowOf envInputSacSpa)
    (List.mem_map.mpr ⟨envInputSacSpa, List.mem_singleton.mpr rfl, rfl⟩)
  have h2 := h.2 rfl
  simpa [envRowOf, envInputSacSpa] using h2

-- ── C6: distance decay is non-increasing in distance ─────────────────────────

/-- C6: for a fixed effective maximum distance `Dmax > 0`, the log-inverse
distance-decay score is monotonically non-increasing in the distance. -/
theorem distance_decay_antitone (dmax d1 d2 : ℝ)
    (hdmax : 0 < dmax) (h0 : 0 ≤ d1) (h12 : d1 ≤ d2) :
    distance_decay_score dmax d2 ≤ distance_decay_score dmax d1 := by
  have hL : 0 < log1p dmax := by
    rw [log1p]
    exact Real.log_pos (by linarith)
  have hc12 : min (max d1 0) dmax ≤ min (max d2 0) dmax :=
    min_le_min (max_le_max h12 le_rfl) le_rfl
  have hc1nn : (0 : ℝ) ≤ min (max d1 0) dmax :=
    le_min (le_max_right _ _) hdmax.le
  have hlog : log1p (min (max d1 0) dmax) ≤ log1p (min (max d2 0) dmax) := by
    simp only [log1p]
    exact Real.log_le_log (by linarith) (by linarith)
  have hdiv : log1p (min (max d1 0) dmax) / log1p dmax
      ≤ log1p (min (max d2 0) dmax) / log1p dmax :=
    (div_le_div_iff_of_pos_right hL).mpr hlog
  have hX : 100 * (1 - log1p (min (max d2 0) dmax) / log1p dmax)
      ≤ 100 * (1 - log1p (min (max d1 0) dmax) / log1p dmax) := by linarith
  exact min_le_min le_rfl (max_le_max le_rfl hX)

theorem distance_decay_antitone_witness :
    distance_decay_score 3 1 ≤ distance_decay_score 3 0 :=
  distance_decay_antitone 3 0 1 (by norm_num) (by norm_num) (by norm_num)

-- ── C7: inner join excludes tiles missing from any sort table ────────────────

theorem joinSortRow_eq_none (energy : Nat → Option ℚ)
    (env : Nat → Option EnvRow)
    (cooling connectivity planning : Nat → Option ℚ) (u : Nat)
    (h : energy u = none ∨ env u = none ∨ cooling u = none
      ∨ connectivity u = none ∨ planning u = none) :
    joinSortRow energy env cooling connectivity planning u = none := by
  unfold joinSortRow
  cases he : energy u <;> cases hv : env u <;> cases hc : cooling u <;>
    cases hn : connectivity u <;> cases hp : planning u <;> simp_all

theorem joinSortRow_tile_id (energy : Nat → Option ℚ)
    (env : Nat → Option EnvRow)
    (cooling connectivity planning : Nat → Option ℚ) (u : Nat) (s : SortRow)
    (h : joinSortRow energy env cooling connectivity planning u = some s) :
    s.tile_id = u := by
  unfold joinSortRow at h
  cases he : energy u <;> cases hv : env u <;> cases hc : cooling u <;>
    cases hn : connectivity u <;> cases hp : planning u <;>
      rw [he, hv, hc, hn, hp] at h
  all_goals try exact Option.noConfusion h
  injection h with h2
  rw [← h2]

theorem length_filterMap_add_none {α β : Type} (f : α → Option β)
    (l : List α) :
    (l.filterMap f).length
      + (l.filter fun u => (f u).isNone).length = l.length := by
  induction l with
  | nil => rfl
  | cons a t ih =>
    cases hfa : f a with
    | none =>
      simp only [List.filterMap_cons, hfa, List.filter_cons,
        Option.isNone_none, if_true, List.length_cons]
      omega
    | some b =>
      simp only [List.filterMap_cons, hfa, List.filter_cons,
        Option.isNone_some, Bool.false_eq_true, if_false, List.length_cons]
      omega

/-- C7: the Composite Aggregator joins the five sort tables with an inner
join — a tile missing from any one of them gets no composite row — and the
reported mismatch count equals the number of tiles missing from at least
one sort table. -/
theorem inner_join_excludes_missing_tiles
    (tiles : List Nat) (energy : Nat → Option ℚ) (env : Nat → Option EnvRow)
    (cooling connectivity planning : Nat → Option ℚ) (t : Nat)
    (ht : t ∈ tiles)
    (hmiss : energy t = none ∨ env t = none ∨ cooling t = none
      ∨ connectivity t = none ∨ planning t = none) :
    (∀ s ∈ load_sort_scores tiles energy env cooling connectivity planning,
        s.tile_id ≠ t)
    ∧ missing_tile_count tiles energy env cooling connectivity planning
        = (tiles.filter fun u => (energy u).isNone || (env u).isNone
            || (cooling u).isNone || (connectivity u).isNone
            || (planning u).isNone).length := by
  constructor
  · intro s hs hst
    obtain ⟨u, hu, hju⟩ := List.mem_filterMap.mp hs
    have hid := joinSortRow_tile_id energy env cooling connectivity planning
      u s hju
    rw [hst] at hid
    rw [← hid] at hju
    rw [joinSortRow_eq_none energy env cooling connectivity planning t hmiss]
      at hju
    exact Option.noConfusion hju
  · have hlen := length_filterMap_add_none
      (joinSortRow energy env cooling connectivity planning) tiles
    have hfeq : (tiles.filter fun u =>
        (joinSortRow energy env cooling connectivity planning u).isNone)
        = tiles.filter fun u => (energy u).isNone || (env u).isNone
            || (cooling u).isNone || (connectivity u).isNone
            || (planning u).isNone := by
      refine List.filter_congr fun u _ => ?_
      cases he : energy u <;> cases hv : env u <;> cases hc : cooling u <;>
        cases hn : connectivity u <;> cases hp : planning u <;>
          simp [joinSortRow, he, hv, hc, hn, hp]
    rw [hfeq] at hlen
    rw [missing_tile_count, load_sort_scores]
    omega

def tiles0 : List Nat := [1, 2]

def energyTab : Nat → Option ℚ := fun t => if t = 1 then some 50 else none

def envTab : Nat → Option EnvRow := fun _ => some (envRowOf envInputSAC)

def coolTab : Nat → Option ℚ := fun _ => some 60

def connTab : Nat → Option ℚ := fun _ => some 70

def planTab : Nat → Option ℚ := fun _ => some 80

theorem inner_join_excludes_missing_tiles_witness :
    (∀ s ∈ load_sort_scores tiles0 energyTab envTab coolTab connTab planTab,
        s.tile_id ≠ 2)
    ∧ missing_tile_count tiles0 energyTab envTab coolTab connTab planTab
        = (tiles0.filter fun u => (energyTab u).isNone || (envTab u).isNone
            || (coolTab u).isNone || (connTab u).isNone
            || (planTab u).isNone).length :=
  inner_join_excludes_missing_tiles tiles0 energyTab envTab coolTab connTab
    planTab 2 (by simp [tiles0]) (Or.inl (by simp [energyTab]))

-- ── C8: grid membership is decided only by the centroid test ─────────────────

theorem filterMap_congr_mem {α β : Type} {l : List α} {f g : α → Option β}
    (h : ∀ a ∈ l, f a = g a) : l.filterMap f = l.filterMap g := by
  induction l with
  | nil => rfl
  | cons a t ih =>
    rw [List.filterMap_cons, List.filterMap_cons,
      h a (List.mem_cons_self _ _),
      ih fun b hb => h b (List.mem_cons_of_mem _ hb)]

/-- C8: a cell survives grid generation exactly by the containment test of
its centroid: every kept cell's centroid passes the test, a candidate whose
centroid fails the test contributes no cell, and two boundary predicates
agreeing on all candidate centroids generate identical grids (full-polygon
intersection is never consulted). -/
theorem grid_keeps_exactly_centroid_hits
    (contains contains2 : ℚ × ℚ → Bool) (minx miny tile_size : ℚ)
    (nCols nRows : Nat)
    (hagree : ∀ idx < nRows * nCols,
      contains2 (candidate_centroid minx miny tile_size nCols idx)
        = contains (candidate_centroid minx miny tile_size nCols idx)) :
    (∀ g ∈ generate_grid_itm contains minx miny tile_size nCols nRows,
        contains (candidate_centroid minx miny tile_size nCols
          (g.row * nCols + g.col)) = true)
    ∧ (∀ idx < nRows * nCols,
        contains (candidate_centroid minx miny tile_size nCols idx)
          = false →
        ∀ g ∈ generate_grid_itm contains minx miny tile_size nCols nRows,
          ¬(g.row = idx / nCols ∧ g.col = idx % nCols))
    ∧ generate_grid_itm contains2 minx miny tile_size nCols nRows
        = generate_grid_itm contains minx miny tile_size nCols nRows := by
  have hmem : ∀ g ∈ generate_grid_itm contains minx miny tile_size
      nCols nRows, ∃ idx, idx < nRows * nCols
      ∧ contains (candidate_centroid minx miny tile_size nCols idx) = true
      ∧ g.row = idx / nCols ∧ g.col = idx % nCols := by
    intro g hg
    obtain ⟨idx, hidx, hfg⟩ := List.mem_filterMap.mp hg
    by_cases hcond :
        contains (candidate_centroid minx miny tile_size nCols idx) = true
    · refine ⟨idx, List.mem_range.mp hidx, hcond, ?_, ?_⟩
      · simp only [hcond, if_true] at hfg
        exact (congrArg GridTile.row (Option.some.inj hfg)).symm
      · simp only [hcond, if_true] at hfg
        exact (congrArg GridTile.col (Option.some.inj hfg)).symm
    · rw [Bool.not_eq_true] at hcond
      simp only [hcond, Bool.false_eq_true, if_false] at hfg
      exact Option.noConfusion hfg
  refine ⟨?_, ?_, ?_⟩
  · intro g hg
    obtain ⟨idx, hlt, hcond, hrow, hcol⟩ := hmem g hg
    rw [hrow, hcol, Nat.div_add_mod' idx nCols]
    exact hcond
  · intro idx hlt hfalse g hg ⟨hrow, hcol⟩
    obtain ⟨idx2, hlt2, hcond2, hrow2, hcol2⟩ := hmem g hg
    have : idx2 = idx := by
      have h1 : idx2 / nCols = idx / nCols := by rw [← hrow2, hrow]
      have h2 : idx2 % nCols = idx % nCols := by rw [← hcol2, hcol]
      have e1 := Nat.div_add_mod idx2 nCols
      have e2 := Nat.div_add_mod idx nCols
      rw [h1, h2] at e1
      omega
    rw [this] at hcond2
    rw [hfalse] at hcond2
    exact Bool.noConfusion hcond2
  · refine filterMap_congr_mem fun idx hidx => ?_
    rw [hagree idx (List.mem_range.mp hidx)]

def containsA : ℚ × ℚ → Bool := fun p => decide (p.1 ≤ 2)

def containsB : ℚ × ℚ → Bool := fun p => decide (p.1 < 3)

theorem grid_keeps_exactly_centroid_hits_witness :
    generate_grid_itm containsB 0 0 2 2 1
      = generate_grid_itm containsA 0 0 2 2 1 :=
  (grid_keeps_exactly_centroid_hits containsA containsB 0 0 2 2 1
    (by
      intro idx hlt
      interval_cases idx <;>
        · simp only [containsA, containsB, candidate_centroid]
          norm_num)).2.2

-- ── C10: overlap detail records ──────────────────────────────────────────────

theorem roundHalfEven_nonneg (x : ℚ) (hx : 0 ≤ x) : 0 ≤ roundHalfEven x := by
  have hf : (0 : ℤ) ≤ ⌊x⌋ := Int.floor_nonneg.mpr hx
  unfold roundHalfEven
  split_ifs <;> omega

theorem roundHalfEven_le_int (x : ℚ) (n : ℤ) (hx : x ≤ n) :
    roundHalfEven x ≤ n := by
  have hf : ⌊x⌋ ≤ n := by
    have h := Int.floor_le_floor hx
    rwa [Int.floor_intCast] at h
  have hfl : (⌊x⌋ : ℚ) ≤ x := Int.floor_le x
  have hkey : (1 : ℚ)/2 ≤ x - ⌊x⌋ → ⌊x⌋ < n := by
    intro hhalf
    have h2 : (⌊x⌋ : ℚ) < (n : ℚ) := by linarith
    exact_mod_cast h2
  unfold roundHalfEven
  split_ifs with h1 h2 h3
  · exact hf
  · have := hkey (le_of_not_lt h1); omega
  · exact hf
  · have := hkey (le_of_not_lt h1); omega

theorem round2_nonneg (x : ℚ) (hx : 0 ≤ x) : 0 ≤ round2 x := by
  unfold round2
  have h := roundHalfEven_nonneg (x * 100) (by linarith)
  positivity

theorem round2_le_100 (x : ℚ) (hx : x ≤ 100) : round2 x ≤ 100 := by
  unfold round2
  have h := roundHalfEven_le_int (x * 100) 10000 (by push_cast; linarith)
  have hq : (roundHalfEven (x * 100) : ℚ) ≤ 10000 := by exact_mod_cast h
  linarith

def sliverPair : OverlapPair := ⟨1, some "Sliver Site", none, 1⟩

/-- C10 counterexample: an intersection of 1 m² (about 0.00002% of the
nominal 4,999,696 m² tile area) survives the positive-area filter and
yields a detail record, but its stored `pct_overlap` — rounded to 2 decimal
places — is 0, not strictly positive. -/
theorem overlap_record_pct_rounds_to_zero :
    0 < sliverPair.area
    ∧ (compute_type_overlaps [sliverPair] "SAC").map
        (fun r => r.pct_overlap) = [0] := by
  constructor
  · norm_num [sliverPair]
  · rw [compute_type_overlaps]
    rw [show List.filter (fun p => decide (0 < p.area)) [sliverPair]
        = [sliverPair] by
      simp only [List.filter_cons, List.filter_nil, decide_eq_true_eq]
      rw [if_pos]
      norm_num [sliverPair]]
    simp only [List.map_cons, List.map_nil]
    rw [show sliverPair.area / TILE_SIZE_M2 * 100 = 25/1249924 by
      norm_num [sliverPair, TILE_SIZE_M2, TILE_SIZE_M]]
    rw [show min (100 : ℚ) (25/1249924) = 25/1249924 by
      rw [min_eq_right]
      norm_num]
    rw [show round2 (25/1249924 : ℚ) = 0 by
      norm_num [round2, roundHalfEven]]

/-- C10 (amended): detail records are emitted exactly for the intersecting
pairs with strictly positive area; each record's stored percentage lies in
[0, 100], and the percentage is strictly positive before the final
2-decimal rounding (which can take it to 0 only for overlaps below 0.005%
of the nominal tile area). -/
theorem overlap_records_bounds (pairs : List OverlapPair) (dt : String)
    (r : OverlapRow) (hr : r ∈ compute_type_overlaps pairs dt) :
    0 ≤ r.pct_overlap ∧ r.pct_overlap ≤ 100
    ∧ ∃ p ∈ pairs, 0 < p.area
        ∧ r.pct_overlap = round2 (min 100 (p.area / TILE_SIZE_M2 * 100))
        ∧ 0 < min 100 (p.area / TILE_SIZE_M2 * 100) := by
  obtain ⟨p, hpf, hpr⟩ := List.mem_map.mp hr
  have hpmem : p ∈ pairs := List.mem_of_mem_filter hpf
  have hparea : 0 < p.area := by
    have := List.of_mem_filter hpf
    simpa using this
  have hT : (0 : ℚ) < TILE_SIZE_M2 := by norm_num [TILE_SIZE_M2, TILE_SIZE_M]
  have hmpos : 0 < min (100 : ℚ) (p.area / TILE_SIZE_M2 * 100) :=
    lt_min (by norm_num) (by positivity)
  have hmle : min (100 : ℚ) (p.area / TILE_SIZE_M2 * 100) ≤ 100 :=
    min_le_left _ _
  have hpct : r.pct_overlap
      = round2 (min 100 (p.area / TILE_SIZE_M2 * 100)) := by
    rw [← hpr]
  refine ⟨?_, ?_, p, hpmem, hparea, hpct, hmpos⟩
  · rw [hpct]; exact round2_nonneg _ hmpos.le
  · rw [hpct]; exact round2_le_100 _ hmle

def bigPair : OverlapPair := ⟨7, some "Big Site", some "X1", 5000000⟩

def bigRow : OverlapRow :=
  { tile_id := 7, designation_type := "SAC", designation_name := "Big Site",
    designation_id := some "X1",
    pct_overlap := round2 (min 100 ((5000000 : ℚ) / TILE_SIZE_M2 * 100)) }

theorem overlap_records_bounds_witness :
    0 ≤ bigRow.pct_overlap ∧ bigRow.pct_overlap ≤ 100 :=
  ⟨(overlap_records_bounds [bigPair] "SAC" bigRow (by
      simp only [compute_type_overlaps, List.filter_cons, List.filter_nil,
        decide_eq_true_eq]
      rw [if_pos (by norm_num [bigPair])]
      simp [bigPair, bigRow])).1,
   (overlap_records_bounds [bigPair] "SAC" bigRow (by
      simp only [compute_type_overlaps, List.filter_cons, List.filter_nil,
        decide_eq_true_eq]
      rw [if_pos (by norm_num [bigPair])]
      simp [bigPair, bigRow])).2.1⟩

end WattWhere
